import Mathlib

/-! Shallow embedding of heimdall-mcp-server, file `src/interfaces/cli.py`
    (class `CognitiveCLI` and the `main` command dispatcher).

    External collaborators are modelled as environments of pure functions:
    the filesystem (`FsEnv`), a source loader (`LoaderEnv`) and the
    Cognitive System (`SysEnv`).  Every outward call the CLI makes is
    recorded in an event trace, so frame conditions ("performs zero loader
    calls", "never invokes the store") become statements about the trace.
    Python exceptions raised by a collaborator are modelled with `Except`;
    the CLI's `try/except` blocks become the corresponding `.error`
    branches.  Python `dict`s are association lists; floats are `Rat`. -/

/-- A metadata value: the Python dict values that matter in this module are
    strings and numbers. -/
inductive MetaValue where
  | str (s : String)
  | num (q : Rat)
deriving DecidableEq, Repr

/-- Python truthiness of `s.strip()`: the emptiness test used on user
    text/query input (true iff the string is empty or all whitespace). -/
def isBlank (s : String) : Bool :=
  s.data.all Char.isWhitespace

/-- Suffix test on characters, modelling Python `str.endswith`. -/
def strEndsWith (s suffix : String) : Bool :=
  suffix.data.isSuffixOf s.data

/-- Character-prefix test, modelling Python `str.startswith`. -/
def strStartsWith (s p : String) : Bool :=
  p.data.isPrefixOf s.data

/-- First `n` characters, modelling Python slicing `s[:n]`. -/
def strTake (s : String) (n : Nat) : String :=
  String.mk (s.data.take n)

/-- Association-list lookup, modelling Python `dict.get key`. -/
def lookupMeta (md : List (String × MetaValue)) (key : String) : Option MetaValue :=
  match md with
  | [] => none
  | (k, v) :: rest => if k = key then some v else lookupMeta rest key

/-- A context dictionary (Python `dict[str, Any]`). -/
abbrev Ctx := List (String × MetaValue)

/-- `cognitive_memory.core.memory.CognitiveMemory`, restricted to the fields
    the CLI module reads. -/
structure Memory where
  id : String
  content : String
  hierarchy_level : Int
  memory_type : String
  strength : Rat
  metadata : List (String × MetaValue)
deriving DecidableEq, Repr

/-- `cognitive_memory.core.memory.BridgeMemory`: a wrapped record with three
    derived scores. -/
structure BridgeMemory where
  memory : Memory
  novelty_score : Rat
  connection_potential : Rat
  bridge_score : Rat
deriving DecidableEq, Repr

/-- A retrieval item is either a plain record or a bridge-wrapped record
    (the two runtime shapes discriminated at display time). -/
inductive MemoryItem where
  | regular (m : Memory)
  | bridge (b : BridgeMemory)
deriving DecidableEq, Repr

/-- The multi-bucket result dict returned by
    `cognitive_system.retrieve_memories` (bucket name to item list). -/
abbrev Buckets := List (String × List MemoryItem)

/-- A connection between two records (only its presence/count matters to the
    CLI). -/
structure Connection where
  source_id : String
  target_id : String
deriving DecidableEq, Repr

/-- Result dict of `cognitive_system.load_memories_from_source`. -/
structure LoadResults where
  success : Bool
  memories_loaded : Nat
  connections_created : Nat
  processing_time : Rat
  memories_failed : Nat
  connections_failed : Nat
  hierarchy_distribution : Option (List (String × Nat))
  error : Option String
deriving DecidableEq, Repr

/-- One outward call made by the CLI, recorded in order. -/
inductive Event where
  | validateSource (path : String)
  | loadFromSource (path : String)
  | extractConnections (path : String)
  | loadStore (path : String)
  | storeExperience (text : String) (context : Option Ctx)
  | retrieveMemories (query : String) (types : List String) (max_results : Int)
deriving DecidableEq, Repr

/-- `loader.validate_source` / `loader.load_from_source` /
    `loader.extract_connections` are calls on the loader (dry-run analysis);
    they never persist anything. -/
def Event.isDryAnalysis : Event → Bool
  | .validateSource _ => true
  | .loadFromSource _ => true
  | .extractConnections _ => true
  | _ => false

/-- Calls that persist state in the Cognitive System store. -/
def Event.isPersisting : Event → Bool
  | .loadStore _ => true
  | .storeExperience _ _ => true
  | _ => false

/-- A call to the collaborator's `store_experience`. -/
def Event.isStoreCall : Event → Bool
  | .storeExperience _ _ => true
  | _ => false

/-- Filesystem facts the CLI queries: `Path.is_dir`, existence of a `.git`
    subdirectory, and `os.walk` (as a list of (root, filename) pairs). -/
structure FsEnv where
  isDir : String → Bool
  hasGitDir : String → Bool
  walk : String → List (String × String)

/-- A source loader (markdown or git variant), as the capability set the CLI
    calls on it.  `loadFromSource` takes the forwarded `**kwargs`. -/
structure LoaderEnv where
  supportedExtensions : List String
  validateSource : String → Bool
  loadFromSource : Ctx → String → Except String (List Memory)
  extractConnections : List Memory → Except String (List Connection)

/-- The Cognitive System collaborator. `store_experience` yields the new
    memory id (the empty string models a falsy id, i.e. a failed store). -/
structure SysEnv where
  store_experience : String → Option Ctx → Except String String
  retrieve_memories : String → List String → Int → Except String Buckets
  load_memories_from_source : Ctx → String → Except String LoadResults

/-! ## Retrieval stratification (`CognitiveCLI.retrieve_memories`) -/

/-- One printed result entry of `retrieve_memories` (content is truncated to
    100 characters for display). -/
inductive DisplayEntry where
  | bridge (shown : String) (id : String) (level : Int)
      (novelty : Rat) (connection : Rat) (bridgeScore : Rat)
  | regular (mem_type : String) (shown : String) (id : String) (level : Int) (score : Rat)
deriving DecidableEq, Repr

/-- Display of one item.  A bridge item is recognised by
    `memory_type == "bridge" and hasattr(item, "memory")`; otherwise the
    item is asserted to be a plain record, so a bridge item in a non-bridge
    bucket raises (AssertionError), as does formatting a non-numeric
    relevance score with `:.2f`. -/
def displayItem (memory_type : String) (item : MemoryItem) : Except Unit DisplayEntry :=
  match item with
  | MemoryItem.bridge b =>
    if memory_type = "bridge" then
      Except.ok (DisplayEntry.bridge (strTake b.memory.content 100) b.memory.id
        b.memory.hierarchy_level b.novelty_score b.connection_potential b.bridge_score)
    else Except.error ()
  | MemoryItem.regular m =>
    match (lookupMeta m.metadata "similarity_score").getD (MetaValue.num m.strength) with
    | MetaValue.num q =>
      Except.ok (DisplayEntry.regular m.memory_type (strTake m.content 100) m.id
        m.hierarchy_level q)
    | MetaValue.str _ => Except.error ()

/-- Display of one bucket: entries printed before a raising item, plus a
    flag telling whether the whole bucket displayed cleanly. -/
def displayItems (memory_type : String) : List MemoryItem → List DisplayEntry × Bool
  | [] => ([], true)
  | it :: its =>
    match displayItem memory_type it with
    | .error _ => ([], false)
    | .ok e =>
      let r := displayItems memory_type its
      (e :: r.1, r.2)

/-- Display of all buckets in order; a raising item aborts the whole
    display (the exception propagates to the handler). -/
def displayAll : Buckets → List DisplayEntry × Bool
  | [] => ([], true)
  | (mt, ms) :: rest =>
    let d := displayItems mt ms
    if d.2 then
      let r := displayAll rest
      (d.1 ++ r.1, r.2)
    else (d.1, false)

/-- `sum(len(memories) for memories in results.values())`. -/
def totalResults (res : Buckets) : Nat :=
  (res.map fun p => p.2.length).sum

/-- Observable outcome of `CognitiveCLI.retrieve_memories`: the returned
    dict (or `none`), the entries actually displayed, and the trace. -/
structure RetrieveOutcome where
  result : Option Buckets
  displayed : List DisplayEntry
  events : List Event
deriving DecidableEq, Repr

/-- `CognitiveCLI.retrieve_memories`.  An empty (all-whitespace) query
    returns `None` before any collaborator call; a collaborator error or a
    display-time exception is caught and also yields `None`. -/
def retrieve_memories (sys : SysEnv) (query : String) (types : Option (List String))
    (limit : Int) (display : Bool) : RetrieveOutcome :=
  if isBlank query then ⟨none, [], []⟩
  else
    let ts := types.getD ["core", "peripheral", "bridge"]
    match sys.retrieve_memories query ts limit with
    | .error _ => ⟨none, [], [Event.retrieveMemories query ts limit]⟩
    | .ok res =>
      if display then
        if totalResults res = 0 then
          ⟨some res, [], [Event.retrieveMemories query ts limit]⟩
        else
          let d := displayAll res
          if d.2 then ⟨some res, d.1, [Event.retrieveMemories query ts limit]⟩
          else ⟨none, d.1, [Event.retrieveMemories query ts limit]⟩
      else ⟨some res, [], [Event.retrieveMemories query ts limit]⟩

/-! ## Storing an experience (`CognitiveCLI.store_experience` and `main`) -/

/-- The `--context` JSON string argument, represented by its parse outcome
    (`json.loads` is Python stdlib, external to this repository): absent,
    a string that fails to parse, or a string parsing to a dict. -/
inductive CtxJson where
  | none
  | invalid (raw : String)
  | valid (raw : String) (ctx : Ctx)
deriving DecidableEq, Repr

/-- Python truthiness of the `context_json` argument (non-`None`, non-empty
    string). -/
def ctxJsonTruthy : CtxJson → Bool
  | .none => false
  | .invalid raw => raw != ""
  | .valid raw _ => raw != ""

/-- Python truthiness of the optional `context` dict. -/
def ctxTruthy : Option Ctx → Bool
  | Option.none => false
  | some c => !c.isEmpty

/-- `CognitiveCLI.store_experience`.  Empty text is rejected before any
    parsing or collaborator call; an invalid `context_json` is rejected
    before the collaborator call; a falsy returned id or a collaborator
    exception yields `False`. -/
def store_experience (sys : SysEnv) (text : String) (context : Option Ctx)
    (context_json : CtxJson) : Bool × List Event :=
  if isBlank text then (false, [])
  else
    match
      (if ctxJsonTruthy context_json && !ctxTruthy context then
        match context_json with
        | CtxJson.valid _ c => Except.ok (some c)
        | CtxJson.invalid _ => Except.error "invalid json"
        | CtxJson.none => Except.ok context
      else Except.ok context) with
    | .error _ => (false, [])
    | .ok ctx =>
      match sys.store_experience text ctx with
      | .error _ => (false, [Event.storeExperience text ctx])
      | .ok mid => (mid != "", [Event.storeExperience text ctx])

/-- The `store` branch of `main`: it always calls `store_experience` with
    the raw context JSON first and, when a hierarchy level was supplied,
    calls it a second time with `context = {"hierarchy_level": level}`,
    keeping only the second call's success. -/
def mainStore (sys : SysEnv) (text : String) (context_json : CtxJson)
    (level : Option Int) : Bool × List Event :=
  let r1 := store_experience sys text Option.none context_json
  match level with
  | Option.none => r1
  | some lvl =>
    let r2 := store_experience sys text
      (some [("hierarchy_level", MetaValue.num (lvl : Rat))]) CtxJson.none
    (r2.1, r1.2 ++ r2.2)

/-- The supplied context JSON does not make `json.loads` raise (either no
    truthy JSON string was supplied, or it parses). -/
def ctxJsonParses : CtxJson → Bool
  | .invalid raw => raw == ""
  | _ => true

/-- The context dict the collaborator receives on the dispatcher's first
    `store_experience` call (no `context` argument; only the raw JSON). -/
def firstStoreCtx : CtxJson → Option Ctx
  | .valid raw c => if raw == "" then Option.none else some c
  | _ => Option.none

/-! ## Git pattern search (`CognitiveCLI.search_git_patterns`) -/

/-- Python truthiness of the dict-or-`None` returned by
    `retrieve_memories` (an empty dict is falsy). -/
def pyTruthy : Option Buckets → Bool
  | Option.none => false
  | some res => !res.isEmpty

/-- Summary printed by the count-only branch: total pattern count plus a
    tally per pattern type. -/
structure PatternSummary where
  total : Nat
  cochange : Nat
  hotspot : Nat
  solution : Nat
deriving DecidableEq, Repr

/-- Unwrap a bridge item to its inner record (`memory.memory` when the item
    is a `BridgeMemory`). -/
def unwrapItem : MemoryItem → Memory
  | .bridge b => b.memory
  | .regular m => m

/-- Tally step: count the item iff its (unwrapped) id starts with `git::`
    and its `pattern_type` metadata is one of the three known types. -/
def bumpPattern (pc : PatternSummary) (item : MemoryItem) : PatternSummary :=
  let actual := unwrapItem item
  if strStartsWith actual.id "git::" then
    match (lookupMeta actual.metadata "pattern_type").getD (MetaValue.str "unknown") with
    | MetaValue.str "cochange" => { pc with cochange := pc.cochange + 1 }
    | MetaValue.str "hotspot" => { pc with hotspot := pc.hotspot + 1 }
    | MetaValue.str "solution" => { pc with solution := pc.solution + 1 }
    | _ => pc
  else pc

/-- The local aggregation over the second query's buckets. -/
def tallyPatterns (res : Buckets) : PatternSummary :=
  res.foldl (fun pc p => p.2.foldl bumpPattern pc) ⟨totalResults res, 0, 0, 0⟩

/-- Query-building: prefix with `"git pattern"`, optionally with the
    pattern-type token. -/
def buildPatternQuery (query : String) (pattern_type : Option String) : String :=
  let base := if isBlank query then "git pattern" else "git pattern " ++ query
  match pattern_type with
  | Option.none => base
  | some pt => if pt = "" then base else pt ++ " " ++ base

/-- `CognitiveCLI.search_git_patterns`: first retrieval with
    `limit * 2`; when `limit == 0` and the first result is truthy, a second
    query with `max_results = 1000` whose buckets are tallied locally.
    Returns (bool result, printed summary if any, trace). -/
def search_git_patterns (sys : SysEnv) (query : String) (pattern_type : Option String)
    (limit : Int) : Bool × Option PatternSummary × List Event :=
  let sq := buildPatternQuery query pattern_type
  let o := retrieve_memories sys sq (some ["core", "peripheral"]) (limit * 2) true
  if limit == 0 && pyTruthy o.result then
    match sys.retrieve_memories "git pattern" ["core", "peripheral"] 1000 with
    | .error _ => (false, Option.none,
        o.events ++ [Event.retrieveMemories "git pattern" ["core", "peripheral"] 1000])
    | .ok res2 => (pyTruthy o.result, some (tallyPatterns res2),
        o.events ++ [Event.retrieveMemories "git pattern" ["core", "peripheral"] 1000])
  else (pyTruthy o.result, Option.none, o.events)

/-! ## Batch ingestion (`CognitiveCLI.load_memories`) -/

/-- Counters accumulated over a directory batch (the `total_*` and
    `hierarchy_dist_combined` variables of the loop). -/
structure DirCounts where
  memories_loaded : Nat
  connections_created : Nat
  processing_time : Rat
  hl0 : Nat
  hl1 : Nat
  hl2 : Nat
  memories_failed : Nat
  connections_failed : Nat
deriving DecidableEq, Repr

/-- All-zero counters. -/
def initCounts : DirCounts := ⟨0, 0, 0, 0, 0, 0, 0, 0⟩

/-- Count one memory into the combined hierarchy distribution
    (`f"L{level}"` must be one of the three known keys). -/
def addDryMemory (cnt : DirCounts) (m : Memory) : DirCounts :=
  if m.hierarchy_level = 0 then { cnt with hl0 := cnt.hl0 + 1 }
  else if m.hierarchy_level = 1 then { cnt with hl1 := cnt.hl1 + 1 }
  else if m.hierarchy_level = 2 then { cnt with hl2 := cnt.hl2 + 1 }
  else cnt

/-- Dry-run accumulation for one analysed file: only the hierarchy
    distribution is counted. -/
def addDryCounts (cnt : DirCounts) (mems : List Memory) : DirCounts :=
  mems.foldl addDryMemory cnt

/-- Merge a returned per-unit hierarchy distribution into the combined one
    (unknown level keys are ignored). -/
def addHierDist (cnt : DirCounts) : List (String × Nat) → DirCounts
  | [] => cnt
  | (lvl, c) :: rest =>
    let cnt' :=
      if lvl = "L0" then { cnt with hl0 := cnt.hl0 + c }
      else if lvl = "L1" then { cnt with hl1 := cnt.hl1 + c }
      else if lvl = "L2" then { cnt with hl2 := cnt.hl2 + c }
      else cnt
    addHierDist cnt' rest

/-- Accumulate a successful unit's `LoadResults` into the batch counters. -/
def addLoadResults (cnt : DirCounts) (r : LoadResults) : DirCounts :=
  let c := { cnt with
    memories_loaded := cnt.memories_loaded + r.memories_loaded,
    connections_created := cnt.connections_created + r.connections_created,
    processing_time := cnt.processing_time + r.processing_time,
    memories_failed := cnt.memories_failed + r.memories_failed,
    connections_failed := cnt.connections_failed + r.connections_failed }
  match r.hierarchy_distribution with
  | Option.none => c
  | some dist => addHierDist c dist

/-- One iteration of the per-file loop: validate (skip on failure), then
    either dry-run analysis or an actual `load_memories_from_source` call;
    any raised error or unsuccessful report flips `ok` to false and the
    loop continues. -/
def processFile (loader : LoaderEnv) (sys : SysEnv) (kwargs : Ctx) (dry_run : Bool)
    (ok : Bool) (cnt : DirCounts) (path : String) : Bool × DirCounts × List Event :=
  if loader.validateSource path = false then
    (ok, cnt, [Event.validateSource path])
  else if dry_run then
    match loader.loadFromSource kwargs path with
    | .error _ => (false, cnt, [Event.validateSource path, Event.loadFromSource path])
    | .ok mems =>
      match loader.extractConnections mems with
      | .error _ => (false, cnt,
          [Event.validateSource path, Event.loadFromSource path, Event.extractConnections path])
      | .ok _conns =>
        (ok, addDryCounts cnt mems,
          [Event.validateSource path, Event.loadFromSource path, Event.extractConnections path])
  else
    match sys.load_memories_from_source kwargs path with
    | .error _ => (false, cnt, [Event.validateSource path, Event.loadStore path])
    | .ok r =>
      if r.success then
        (ok, addLoadResults cnt r, [Event.validateSource path, Event.loadStore path])
      else (false, cnt, [Event.validateSource path, Event.loadStore path])

/-- The whole per-file loop, threading the success flag and counters and
    concatenating the per-unit traces. -/
def processFiles (loader : LoaderEnv) (sys : SysEnv) (kwargs : Ctx) (dry_run : Bool) :
    Bool → DirCounts → List String → (Bool × DirCounts) × List Event
  | ok, cnt, [] => ((ok, cnt), [])
  | ok, cnt, f :: fs =>
    let r := processFile loader sys kwargs dry_run ok cnt f
    let rest := processFiles loader sys kwargs dry_run r.1 r.2.1 fs
    (rest.1, r.2.2 ++ rest.2)

/-- Insertion into a lexicographically sorted list of paths. -/
def insertSorted (s : String) : List String → List String
  | [] => [s]
  | t :: ts => if s ≤ t then s :: t :: ts else t :: insertSorted s ts

/-- `sorted(markdown_files)`. -/
def sortPaths : List String → List String
  | [] => []
  | s :: ss => insertSorted s (sortPaths ss)

/-- The loader-type check at the top of `load_memories`. -/
def supportedLoader (loader_type : String) : Bool :=
  loader_type == "markdown" || loader_type == "git"

/-- Directory enumeration: every `os.walk` entry whose filename ends with a
    supported extension, as a full path. -/
def matchedFiles (fsys : FsEnv) (loader : LoaderEnv) (source_path : String) : List String :=
  (fsys.walk source_path).filterMap fun rf =>
    if loader.supportedExtensions.any (fun ext => strEndsWith rf.2 ext) then
      some (rf.1 ++ "/" ++ rf.2)
    else none

/-- `CognitiveCLI.load_memories`.  Returns the boolean result and the trace
    of collaborator calls. -/
def load_memories (fsys : FsEnv) (loader : LoaderEnv) (sys : SysEnv)
    (source_path loader_type : String) (dry_run recursive : Bool) (kwargs : Ctx) :
    Bool × List Event :=
  if supportedLoader loader_type = false then (false, [])
  else if fsys.isDir source_path && !(loader_type == "git" && fsys.hasGitDir source_path) then
    if recursive = false then (false, [])
    else
      let files := matchedFiles fsys loader source_path
      if files.isEmpty then (false, [])
      else
        let r := processFiles loader sys kwargs dry_run true initCounts (sortPaths files)
        (r.1.1, r.2)
  else
    if loader.validateSource source_path = false then
      (false, [Event.validateSource source_path])
    else if dry_run then
      match loader.loadFromSource kwargs source_path with
      | .error _ =>
        (false, [Event.validateSource source_path, Event.loadFromSource source_path])
      | .ok mems =>
        match loader.extractConnections mems with
        | .error _ => (false, [Event.validateSource source_path,
            Event.loadFromSource source_path, Event.extractConnections source_path])
        | .ok _ => (true, [Event.validateSource source_path,
            Event.loadFromSource source_path, Event.extractConnections source_path])
    else
      match sys.load_memories_from_source kwargs source_path with
      | .error _ => (false, [Event.validateSource source_path, Event.loadStore source_path])
      | .ok r => (r.success, [Event.validateSource source_path, Event.loadStore source_path])

/-- `CognitiveCLI.load_git_patterns`: pure delegation to `load_memories`
    with the git loader; the `refresh` flag is accepted and discarded, and
    `recursive` is left at its default `False`. -/
def load_git_patterns (fsys : FsEnv) (loader : LoaderEnv) (sys : SysEnv)
    (repo_path : String) (dry_run refresh : Bool) (kwargs : Ctx) : Bool × List Event :=
  load_memories fsys loader sys repo_path "git" dry_run false kwargs

/-- Per-unit verdict of the directory loop: a unit that fails validation is
    only skipped; otherwise the dry-run analysis or the store call must
    succeed for the batch flag to survive. -/
def unitOk (loader : LoaderEnv) (sys : SysEnv) (kwargs : Ctx) (dry_run : Bool)
    (f : String) : Bool :=
  if loader.validateSource f = false then true
  else if dry_run then
    match loader.loadFromSource kwargs f with
    | .error _ => false
    | .ok mems =>
      match loader.extractConnections mems with
      | .error _ => false
      | .ok _ => true
  else
    match sys.load_memories_from_source kwargs f with
    | .error _ => false
    | .ok r => r.success

/-! ## Concrete environments used to instantiate the theorems -/

/-- A directory containing three markdown files. -/
def fsA : FsEnv :=
  { isDir := fun _ => true
    hasGitDir := fun _ => false
    walk := fun _ => [("d", "a.md"), ("d", "b.md"), ("d", "c.md")] }

/-- A directory whose only file matches no supported extension. -/
def fsB : FsEnv :=
  { isDir := fun _ => true
    hasGitDir := fun _ => false
    walk := fun _ => [("d", "x.txt")] }

/-- A successful per-unit ingestion report. -/
def okResults : LoadResults :=
  { success := true, memories_loaded := 1, connections_created := 0, processing_time := 0,
    memories_failed := 0, connections_failed := 0,
    hierarchy_distribution := Option.none, error := Option.none }

/-- A markdown-style loader that accepts every source. -/
def loaderA : LoaderEnv :=
  { supportedExtensions := [".md"]
    validateSource := fun _ => true
    loadFromSource := fun _ _ => Except.ok []
    extractConnections := fun _ => Except.ok [] }

/-- A loader that rejects every source at validation. -/
def loaderB : LoaderEnv :=
  { supportedExtensions := [".md"]
    validateSource := fun _ => false
    loadFromSource := fun _ _ => Except.ok []
    extractConnections := fun _ => Except.ok [] }

/-- A store for which exactly the unit `d/b.md` raises during load/store. -/
def sysA : SysEnv :=
  { store_experience := fun _ _ => Except.ok "mem-1"
    retrieve_memories := fun _ _ _ => Except.ok []
    load_memories_from_source := fun _ p =>
      if p = "d/b.md" then Except.error "boom" else Except.ok okResults }

/-- A history-derived record with the given id and pattern type. -/
def gitMem (idv pt : String) : Memory :=
  { id := idv, content := "p", hierarchy_level := 2, memory_type := "episodic",
    strength := 1/2, metadata := [("pattern_type", MetaValue.str pt)] }

/-- Three `git::` records with pattern types cochange, cochange, hotspot. -/
def threeGitBuckets : Buckets :=
  [("core", [MemoryItem.regular (gitMem "git::a" "cochange"),
             MemoryItem.regular (gitMem "git::b" "cochange"),
             MemoryItem.regular (gitMem "git::c" "hotspot")])]

/-- A plain record without a similarity score. -/
def plainMem : Memory :=
  { id := "m1", content := "note", hierarchy_level := 1, memory_type := "semantic",
    strength := 1/2, metadata := [] }

/-- A store whose unlimited (`max_results = 1000`) query returns the three
    git records, and any other query one plain record. -/
def sysB : SysEnv :=
  { store_experience := fun _ _ => Except.ok "mem-1"
    retrieve_memories := fun _ _ n =>
      if n == 1000 then Except.ok threeGitBuckets
      else Except.ok [("core", [MemoryItem.regular plainMem])]
    load_memories_from_source := fun _ _ => Except.ok okResults }

/-- A bridge item with novelty 0.8, connection potential 0.6, bridge score 0.7. -/
def bridgeWit : BridgeMemory :=
  { memory := { id := "git::bridge-1", content := "bridging note", hierarchy_level := 1,
                memory_type := "episodic", strength := 1/2, metadata := [] }
    novelty_score := 0.8
    connection_potential := 0.6
    bridge_score := 0.7 }

/-- A store returning exactly one bridge item in the bridge bucket. -/
def sysC : SysEnv :=
  { store_experience := fun _ _ => Except.ok "mem-1"
    retrieve_memories := fun _ _ _ =>
      Except.ok [("bridge", [MemoryItem.bridge bridgeWit])]
    load_memories_from_source := fun _ _ => Except.ok okResults }

/-- A regular record carrying a `similarity_score` different from its
    strength. -/
def simMem : Memory :=
  { id := "m2", content := "scored", hierarchy_level := 2, memory_type := "episodic",
    strength := 0.4, metadata := [("similarity_score", MetaValue.num 0.9)] }

/-- A store returning exactly one regular item carrying a similarity score. -/
def sysD : SysEnv :=
  { store_experience := fun _ _ => Except.ok "mem-1"
    retrieve_memories := fun _ _ _ =>
      Except.ok [("core", [MemoryItem.regular simMem])]
    load_memories_from_source := fun _ _ => Except.ok okResults }

/-! ## Helper lemmas -/

theorem mem_insertSorted (a s : String) (l : List String) :
    a ∈ insertSorted s l ↔ a = s ∨ a ∈ l := by
  induction l with
  | nil => simp [insertSorted]
  | cons t ts ih =>
    by_cases h : s ≤ t
    · simp [insertSorted, h]
    · simp [insertSorted, h, ih]
      tauto

theorem mem_sortPaths (a : String) (l : List String) : a ∈ sortPaths l ↔ a ∈ l := by
  induction l with
  | nil => simp [sortPaths]
  | cons s ss ih => simp [sortPaths, mem_insertSorted, ih]

theorem processFile_fst (loader : LoaderEnv) (sys : SysEnv) (kwargs : Ctx)
    (dry_run ok : Bool) (cnt : DirCounts) (f : String) :
    (processFile loader sys kwargs dry_run ok cnt f).1
      = (ok && unitOk loader sys kwargs dry_run f) := by
  unfold processFile unitOk
  by_cases hv : loader.validateSource f = false
  · simp [hv]
  · by_cases hd : dry_run
    · simp only [hv, hd, if_false, if_true]
      cases hl : loader.loadFromSource kwargs f with
      | error e => simp
      | ok mems =>
        cases he : loader.extractConnections mems with
        | error e => simp [he]
        | ok cs => simp [he]
    · simp only [hv, hd, if_false, if_true]
      cases hr : sys.load_memories_from_source kwargs f with
      | error e => simp
      | ok r =>
        by_cases hs : r.success
        · simp [hs]
        · simp [hs]

theorem processFile_validate_mem (loader : LoaderEnv) (sys : SysEnv) (kwargs : Ctx)
    (dry_run ok : Bool) (cnt : DirCounts) (f : String) :
    Event.validateSource f ∈ (processFile loader sys kwargs dry_run ok cnt f).2.2 := by
  unfold processFile
  by_cases hv : loader.validateSource f = false
  · simp [hv]
  · by_cases hd : dry_run
    · simp only [hv, hd, if_false, if_true]
      cases hl : loader.loadFromSource kwargs f with
      | error e => simp
      | ok mems =>
        cases he : loader.extractConnections mems with
        | error e => simp [he]
        | ok cs => simp [he]
    · simp only [hv, hd, if_false, if_true]
      cases hr : sys.load_memories_from_source kwargs f with
      | error e => simp
      | ok r =>
        by_cases hs : r.success
        · simp [hs]
        · simp [hs]

theorem processFile_loadStore_mem (loader : LoaderEnv) (sys : SysEnv) (kwargs : Ctx)
    (ok : Bool) (cnt : DirCounts) (f : String)
    (hv : loader.validateSource f = true) :
    Event.loadStore f ∈ (processFile loader sys kwargs false ok cnt f).2.2 := by
  unfold processFile
  simp only [hv, Bool.true_eq_false, if_false, if_neg (by simp : ¬False)]
  cases sys.load_memories_from_source kwargs f with
  | error e => simp
  | ok r =>
    by_cases hs : r.success
    · simp [hs]
    · simp [hs]

theorem processFile_skip (loader : LoaderEnv) (sys : SysEnv) (kwargs : Ctx)
    (dry_run ok : Bool) (cnt : DirCounts) (f : String)
    (hv : loader.validateSource f = false) :
    processFile loader sys kwargs dry_run ok cnt f = (ok, cnt, [Event.validateSource f]) := by
  unfold processFile
  simp [hv]

theorem processFile_dry_events (loader : LoaderEnv) (sys : SysEnv) (kwargs : Ctx)
    (ok : Bool) (cnt : DirCounts) (f : String) :
    ((processFile loader sys kwargs true ok cnt f).2.2.all Event.isDryAnalysis) = true := by
  unfold processFile
  by_cases hv : loader.validateSource f = false
  · simp [hv, Event.isDryAnalysis]
  · simp only [hv, if_false, if_true]
    cases hl : loader.loadFromSource kwargs f with
    | error e => simp [Event.isDryAnalysis]
    | ok mems =>
      cases he : loader.extractConnections mems with
      | error e => simp [he, Event.isDryAnalysis]
      | ok cs => simp [he, Event.isDryAnalysis]

theorem processFiles_fst (loader : LoaderEnv) (sys : SysEnv) (kwargs : Ctx)
    (dry_run : Bool) (l : List String) :
    ∀ (ok : Bool) (cnt : DirCounts),
      (processFiles loader sys kwargs dry_run ok cnt l).1.1
        = (ok && l.all (unitOk loader sys kwargs dry_run)) := by
  induction l with
  | nil => intro ok cnt; simp [processFiles]
  | cons f fs ih =>
    intro ok cnt
    simp only [processFiles, ih, List.all_cons]
    rw [processFile_fst]
    rw [Bool.and_assoc]

theorem processFiles_validate_mem (loader : LoaderEnv) (sys : SysEnv) (kwargs : Ctx)
    (dry_run : Bool) (l : List String) (f : String) (hf : f ∈ l) :
    ∀ (ok : Bool) (cnt : DirCounts),
      Event.validateSource f ∈ (processFiles loader sys kwargs dry_run ok cnt l).2 := by
  induction l with
  | nil => cases hf
  | cons g gs ih =>
    intro ok cnt
    simp only [processFiles, List.mem_append]
    rcases List.mem_cons.mp hf with h | h
    · subst h
      exact Or.inl (processFile_validate_mem loader sys kwargs dry_run ok cnt f)
    · exact Or.inr (ih h _ _)

theorem processFiles_loadStore_mem (loader : LoaderEnv) (sys : SysEnv) (kwargs : Ctx)
    (l : List String) (f : String) (hf : f ∈ l) (hv : loader.validateSource f = true) :
    ∀ (ok : Bool) (cnt : DirCounts),
      Event.loadStore f ∈ (processFiles loader sys kwargs false ok cnt l).2 := by
  induction l with
  | nil => cases hf
  | cons g gs ih =>
    intro ok cnt
    simp only [processFiles, List.mem_append]
    rcases List.mem_cons.mp hf with h | h
    · subst h
      exact Or.inl (processFile_loadStore_mem loader sys kwargs ok cnt f hv)
    · exact Or.inr (ih h _ _)

theorem processFiles_dry_events (loader : LoaderEnv) (sys : SysEnv) (kwargs : Ctx)
    (l : List String) :
    ∀ (ok : Bool) (cnt : DirCounts),
      ((processFiles loader sys kwargs true ok cnt l).2.all Event.isDryAnalysis) = true := by
  induction l with
  | nil => intro ok cnt; simp [processFiles]
  | cons f fs ih =>
    intro ok cnt
    simp only [processFiles, List.all_append]
    rw [processFile_dry_events, ih]
    rfl

theorem processFiles_all_invalid (loader : LoaderEnv) (sys : SysEnv) (kwargs : Ctx)
    (dry_run : Bool) (l : List String)
    (hinv : ∀ f ∈ l, loader.validateSource f = false) :
    ∀ (ok : Bool) (cnt : DirCounts),
      processFiles loader sys kwargs dry_run ok cnt l
        = ((ok, cnt), l.map Event.validateSource) := by
  induction l with
  | nil => intro ok cnt; simp [processFiles]
  | cons f fs ih =>
    intro ok cnt
    have hv := hinv f (List.mem_cons_self f fs)
    simp only [processFiles, processFile_skip loader sys kwargs dry_run ok cnt f hv]
    rw [ih (fun g hg => hinv g (List.mem_cons_of_mem f hg))]
    simp

theorem totalResults_zero (res : Buckets) (bt : String) (ms : List MemoryItem)
    (h0 : totalResults res = 0) (hmem : (bt, ms) ∈ res) : ms = [] := by
  induction res with
  | nil => cases hmem
  | cons p rest ih =>
    simp only [totalResults, List.map_cons, List.sum_cons, Nat.add_eq_zero] at h0
    rcases List.mem_cons.mp hmem with h | h
    · subst h
      exact List.eq_nil_of_length_eq_zero h0.1
    · exact ih h0.2 h

theorem displayItems_bridge_mem (ms : List MemoryItem) (b : BridgeMemory)
    (hok : (displayItems "bridge" ms).2 = true) (hb : MemoryItem.bridge b ∈ ms) :
    DisplayEntry.bridge (strTake b.memory.content 100) b.memory.id b.memory.hierarchy_level
      b.novelty_score b.connection_potential b.bridge_score
      ∈ (displayItems "bridge" ms).1 := by
  induction ms with
  | nil => cases hb
  | cons it its ih =>
    rcases List.mem_cons.mp hb with h | h
    · subst h
      simp [displayItems, displayItem]
    · cases hd : displayItem "bridge" it with
      | error e =>
        rw [displayItems, hd] at hok
        cases hok
      | ok e =>
        rw [displayItems, hd] at hok ⊢
        simp only [List.mem_cons]
        exact Or.inr (ih hok h)

theorem displayAll_bucket (res : Buckets) (bt : String) (ms : List MemoryItem)
    (hok : (displayAll res).2 = true) (hmem : (bt, ms) ∈ res) :
    (displayItems bt ms).2 = true ∧
      ∀ e ∈ (displayItems bt ms).1, e ∈ (displayAll res).1 := by
  induction res with
  | nil => cases hmem
  | cons p rest ih =>
    obtain ⟨mt, ims⟩ := p
    by_cases hd : (displayItems mt ims).2 = true
    · rw [displayAll] at hok ⊢
      simp only [hd, if_true] at hok ⊢
      rcases List.mem_cons.mp hmem with h | h
      · obtain ⟨h1, h2⟩ := Prod.mk.injEq .. ▸ h
        cases h
        refine ⟨hd, fun e he => ?_⟩
        exact List.mem_append_left _ he
      · obtain ⟨hh1, hh2⟩ := ih hok h
        exact ⟨hh1, fun e he => List.mem_append_right _ (hh2 e he)⟩
    · rw [displayAll] at hok
      simp only [if_neg hd] at hok
      cases hok

theorem displayItems_src (mt : String) (ms : List MemoryItem) (e : DisplayEntry)
    (he : e ∈ (displayItems mt ms).1) :
    ∃ it ∈ ms, displayItem mt it = Except.ok e := by
  induction ms with
  | nil => cases he
  | cons it its ih =>
    cases hd : displayItem mt it with
    | error u =>
      rw [displayItems, hd] at he
      cases he
    | ok e' =>
      rw [displayItems, hd] at he
      rcases List.mem_cons.mp he with h | h
      · subst h
        exact ⟨it, List.mem_cons_self it its, hd⟩
      · obtain ⟨it', hit', h'⟩ := ih h
        exact ⟨it', List.mem_cons_of_mem it hit', h'⟩

theorem displayAll_src (res : Buckets) (e : DisplayEntry)
    (he : e ∈ (displayAll res).1) :
    ∃ bt ms, (bt, ms) ∈ res ∧ e ∈ (displayItems bt ms).1 := by
  induction res with
  | nil => cases he
  | cons p rest ih =>
    obtain ⟨mt, ims⟩ := p
    by_cases hd : (displayItems mt ims).2 = true
    · rw [displayAll] at he
      simp only [hd, if_true] at he
      rcases List.mem_append.mp he with h | h
      · exact ⟨mt, ims, List.mem_cons_self _ _, h⟩
      · obtain ⟨bt, ms, hm, hin⟩ := ih h
        exact ⟨bt, ms, List.mem_cons_of_mem _ hm, hin⟩
    · rw [displayAll] at he
      simp only [if_neg hd] at he
      exact ⟨mt, ims, List.mem_cons_self _ _, he⟩

/-! ## Claim theorems -/

/-- C2: Dry-run purity — for every source, loader kind, recursion flag and
    extra parameters, `load_memories` with `dry_run = true` makes only
    loader analysis calls (`validate_source`, `load_from_source`,
    `extract_connections`) and never a persisting call (no
    `load_memories_from_source`, no `store_experience`), so the store's
    record count is unchanged. -/
theorem dry_run_purity (fsys : FsEnv) (loader : LoaderEnv) (sys : SysEnv)
    (source_path loader_type : String) (recursive : Bool) (kwargs : Ctx) :
    ((load_memories fsys loader sys source_path loader_type true recursive kwargs).2.all
      Event.isDryAnalysis) = true := by
  unfold load_memories
  by_cases hs : supportedLoader loader_type = false
  · simp [hs]
  · simp only [hs, if_false]
    by_cases hdir :
        (fsys.isDir source_path && !(loader_type == "git" && fsys.hasGitDir source_path)) = true
    · simp only [hdir, if_true]
      by_cases hr : recursive = false
      · simp [hr]
      · simp only [hr, if_false]
        by_cases hf : (matchedFiles fsys loader source_path).isEmpty = true
        · simp [hf]
        · simp only [hf, if_false]
          exact processFiles_dry_events loader sys kwargs _ true initCounts
    · simp only [hdir, if_false]
      by_cases hv : loader.validateSource source_path = false
      · simp [hv, Event.isDryAnalysis]
      · simp only [hv, if_false, if_true]
        cases hl : loader.loadFromSource kwargs source_path with
        | error e => simp [Event.isDryAnalysis]
        | ok mems =>
          cases he : loader.extractConnections mems with
          | error e => simp [he, Event.isDryAnalysis]
          | ok cs => simp [he, Event.isDryAnalysis]

/-- C3: a directory source (that is not a git repository root under the git
    loader) together with `recursive = false` is a usage error: the call
    returns failure with an empty trace — no `validate_source`, no
    `load_from_source`, no load-and-store call ever happens. -/
theorem dir_without_recursive_fails (fsys : FsEnv) (loader : LoaderEnv) (sys : SysEnv)
    (source_path loader_type : String) (dry_run : Bool) (kwargs : Ctx)
    (hdir : fsys.isDir source_path = true)
    (hgit : (loader_type == "git" && fsys.hasGitDir source_path) = false) :
    load_memories fsys loader sys source_path loader_type dry_run false kwargs
      = (false, []) := by
  unfold load_memories
  by_cases hs : supportedLoader loader_type = false
  · simp [hs]
  · simp [hs, hdir, hgit]

/-- Witness for C3 at a concrete directory environment. -/
theorem dir_without_recursive_fails_witness :
    fsA.isDir "d" = true ∧
    load_memories fsA loaderA sysA "d" "markdown" false false [] = (false, []) :=
  ⟨by decide,
   dir_without_recursive_fails fsA loaderA sysA "d" "markdown" false []
     (by decide) (by decide)⟩

/-- C8: empty input is rejected before any collaborator call — for every
    all-whitespace text, `store_experience` returns failure with an empty
    trace, and for every all-whitespace query, `retrieve_memories` returns
    no result with an empty trace. -/
theorem blank_input_rejected (sys : SysEnv) (text query : String) (context : Option Ctx)
    (context_json : CtxJson) (types : Option (List String)) (limit : Int) (display : Bool)
    (ht : isBlank text = true) (hq : isBlank query = true) :
    store_experience sys text context context_json = (false, []) ∧
    retrieve_memories sys query types limit display = ⟨Option.none, [], []⟩ := by
  constructor
  · unfold store_experience
    simp [ht]
  · unfold retrieve_memories
    simp [hq]

/-- Witness for C8 at a whitespace text and an empty query. -/
theorem blank_input_rejected_witness :
    isBlank " \t" = true ∧ isBlank "" = true ∧
    store_experience sysA " \t" Option.none CtxJson.none = (false, []) ∧
    retrieve_memories sysA "" Option.none 10 true = ⟨Option.none, [], []⟩ :=
  ⟨by decide, by decide,
   (blank_input_rejected sysA " \t" "" Option.none CtxJson.none Option.none 10 true
      (by decide) (by decide)).1,
   (blank_input_rejected sysA " \t" "" Option.none CtxJson.none Option.none 10 true
      (by decide) (by decide)).2⟩

/-- C10: the `refresh` flag of `load_git_patterns` has no effect — for any
    two values of the flag the calls and the result are identical, and both
    equal `load_memories` with the git loader on the same parameters
    (with `recursive` left at its default `false`). -/
theorem refresh_flag_noop (fsys : FsEnv) (loader : LoaderEnv) (sys : SysEnv)
    (repo_path : String) (dry_run r1 r2 : Bool) (kwargs : Ctx) :
    load_git_patterns fsys loader sys repo_path dry_run r1 kwargs
      = load_git_patterns fsys loader sys repo_path dry_run r2 kwargs ∧
    load_git_patterns fsys loader sys repo_path dry_run r1 kwargs
      = load_memories fsys loader sys repo_path "git" dry_run false kwargs :=
  ⟨rfl, rfl⟩

/-- C1: failure isolation in batch ingestion — in a recursive non-dry-run
    directory ingestion where every candidate unit validates and exactly
    one unit's load/store raises or reports failure, every unit (including
    all the N-1 others) is still validated and loaded in turn (its
    `validate_source` and `load_memories_from_source` calls appear in the
    trace), and the one unit-level failure makes the overall result
    failure — the loop is not aborted at the failing unit. -/
theorem batch_failure_isolation (fsys : FsEnv) (loader : LoaderEnv) (sys : SysEnv)
    (source_path loader_type : String) (kwargs : Ctx) (f0 : String)
    (hlt : supportedLoader loader_type = true)
    (hdir : fsys.isDir source_path = true)
    (hgit : (loader_type == "git" && fsys.hasGitDir source_path) = false)
    (hf0 : f0 ∈ matchedFiles fsys loader source_path)
    (hval : ∀ f ∈ matchedFiles fsys loader source_path, loader.validateSource f = true)
    (hfail : unitOk loader sys kwargs false f0 = false)
    (hrest : ∀ f ∈ matchedFiles fsys loader source_path, f ≠ f0 →
      unitOk loader sys kwargs false f = true) :
    (load_memories fsys loader sys source_path loader_type false true kwargs).1 = false ∧
    ∀ f ∈ matchedFiles fsys loader source_path,
      Event.validateSource f
        ∈ (load_memories fsys loader sys source_path loader_type false true kwargs).2 ∧
      Event.loadStore f
        ∈ (load_memories fsys loader sys source_path loader_type false true kwargs).2 := by
  have hne : (matchedFiles fsys loader source_path).isEmpty = false := by
    cases hE : (matchedFiles fsys loader source_path).isEmpty
    · rfl
    · rw [List.isEmpty_iff] at hE
      rw [hE] at hf0
      cases hf0
  have heq : load_memories fsys loader sys source_path loader_type false true kwargs
      = ((processFiles loader sys kwargs false true initCounts
            (sortPaths (matchedFiles fsys loader source_path))).1.1,
         (processFiles loader sys kwargs false true initCounts
            (sortPaths (matchedFiles fsys loader source_path))).2) := by
    unfold load_memories
    simp [hlt, hdir, hgit, hne]
  rw [heq]
  constructor
  · rw [processFiles_fst]
    have hall : (sortPaths (matchedFiles fsys loader source_path)).all
        (unitOk loader sys kwargs false) = false := by
      cases hA : (sortPaths (matchedFiles fsys loader source_path)).all
          (unitOk loader sys kwargs false)
      · rfl
      · have := List.all_eq_true.mp hA f0 ((mem_sortPaths _ _).mpr hf0)
        rw [hfail] at this
        cases this
    rw [hall]
    rfl
  · intro f hf
    have hf' : f ∈ sortPaths (matchedFiles fsys loader source_path) :=
      (mem_sortPaths _ _).mpr hf
    exact ⟨processFiles_validate_mem loader sys kwargs false _ f hf' true initCounts,
           processFiles_loadStore_mem loader sys kwargs _ f hf' (hval f hf) true initCounts⟩

/-- Witness for C1: three matched units of which exactly `d/b.md` fails its
    store call; both other units are still loaded and the result is
    failure. -/
theorem batch_failure_isolation_witness :
    ("d/b.md" ∈ matchedFiles fsA loaderA "d") ∧
    unitOk loaderA sysA [] false "d/b.md" = false ∧
    (load_memories fsA loaderA sysA "d" "markdown" false true []).1 = false ∧
    Event.loadStore "d/a.md" ∈ (load_memories fsA loaderA sysA "d" "markdown" false true []).2 ∧
    Event.loadStore "d/c.md" ∈ (load_memories fsA loaderA sysA "d" "markdown" false true []).2 := by
  have h := batch_failure_isolation fsA loaderA sysA "d" "markdown" [] "d/b.md"
    (by decide) (by decide) (by decide) (by decide) (by decide) (by decide) (by decide)
  exact ⟨by decide, by decide, h.1,
    (h.2 "d/a.md" (by decide)).2, (h.2 "d/c.md" (by decide)).2⟩

/-- C4: zero-match versus all-invalid asymmetry — a recursive directory
    ingestion whose walk yields no file with a supported extension is a
    hard error (failure, empty trace, no loader call), while one in which
    at least one file matched the extension filter but every matched file
    fails `validate_source` records only skips (the trace is exactly one
    validation call per matched file, in sorted order) and the overall
    result stays success. -/
theorem zero_match_vs_all_invalid
    (fs1 : FsEnv) (loader1 : LoaderEnv) (sys1 : SysEnv) (sp1 lt1 : String)
    (dr1 : Bool) (kw1 : Ctx)
    (fs2 : FsEnv) (loader2 : LoaderEnv) (sys2 : SysEnv) (sp2 lt2 : String)
    (dr2 : Bool) (kw2 : Ctx)
    (h1lt : supportedLoader lt1 = true) (h1dir : fs1.isDir sp1 = true)
    (h1git : (lt1 == "git" && fs1.hasGitDir sp1) = false)
    (h1none : matchedFiles fs1 loader1 sp1 = [])
    (h2lt : supportedLoader lt2 = true) (h2dir : fs2.isDir sp2 = true)
    (h2git : (lt2 == "git" && fs2.hasGitDir sp2) = false)
    (h2some : matchedFiles fs2 loader2 sp2 ≠ [])
    (h2inv : ∀ f ∈ matchedFiles fs2 loader2 sp2, loader2.validateSource f = false) :
    load_memories fs1 loader1 sys1 sp1 lt1 dr1 true kw1 = (false, []) ∧
    (load_memories fs2 loader2 sys2 sp2 lt2 dr2 true kw2).1 = true ∧
    (load_memories fs2 loader2 sys2 sp2 lt2 dr2 true kw2).2
      = (sortPaths (matchedFiles fs2 loader2 sp2)).map Event.validateSource := by
  refine ⟨?_, ?_⟩
  · unfold load_memories
    simp [h1lt, h1dir, h1git, h1none]
  · have hne : (matchedFiles fs2 loader2 sp2).isEmpty = false := by
      cases hE : (matchedFiles fs2 loader2 sp2).isEmpty
      · rfl
      · exact absurd (List.isEmpty_iff.mp hE) h2some
    have hproc := processFiles_all_invalid loader2 sys2 kw2 dr2
      (sortPaths (matchedFiles fs2 loader2 sp2))
      (fun f hf => h2inv f ((mem_sortPaths _ _).mp hf)) true initCounts
    have heq : load_memories fs2 loader2 sys2 sp2 lt2 dr2 true kw2
        = ((processFiles loader2 sys2 kw2 dr2 true initCounts
              (sortPaths (matchedFiles fs2 loader2 sp2))).1.1,
           (processFiles loader2 sys2 kw2 dr2 true initCounts
              (sortPaths (matchedFiles fs2 loader2 sp2))).2) := by
      unfold load_memories
      simp [h2lt, h2dir, h2git, hne]
    rw [heq, hproc]
    exact ⟨rfl, rfl⟩

/-- Witness for C4: a directory with no matching file is a hard error; a
    directory with three matched files that all fail validation succeeds
    with a trace of three validation calls. -/
theorem zero_match_vs_all_invalid_witness :
    matchedFiles fsB loaderA "d" = [] ∧
    (∀ f ∈ matchedFiles fsA loaderB "d", loaderB.validateSource f = false) ∧
    load_memories fsB loaderA sysA "d" "markdown" false true [] = (false, []) ∧
    (load_memories fsA loaderB sysA "d" "markdown" false true []).1 = true := by
  have h := zero_match_vs_all_invalid fsB loaderA sysA "d" "markdown" false []
    fsA loaderB sysA "d" "markdown" false []
    (by decide) (by decide) (by decide) (by decide)
    (by decide) (by decide) (by decide) (by decide) (by decide)
  exact ⟨by decide, by decide, h.1, h.2.1⟩

/-- C5: count-only pattern query — whenever `search_git_patterns` is called
    with `limit = 0` and the first retrieval is truthy, it performs a
    second query (`"git pattern"`, core+peripheral, `max_results = 1000`,
    i.e. not bounded by the caller's limit) and reports the local tally of
    pattern types among records whose id carries the `git::` prefix,
    bridge items unwrapped first and absent types reported as 0. -/
theorem pattern_count_query (sys : SysEnv) (query : String) (pattern_type : Option String)
    (res2 : Buckets)
    (hfirst : pyTruthy (retrieve_memories sys (buildPatternQuery query pattern_type)
        (some ["core", "peripheral"]) 0 true).result = true)
    (hsecond : sys.retrieve_memories "git pattern" ["core", "peripheral"] 1000
        = Except.ok res2) :
    search_git_patterns sys query pattern_type 0
      = (true, some (tallyPatterns res2),
        (retrieve_memories sys (buildPatternQuery query pattern_type)
          (some ["core", "peripheral"]) 0 true).events
          ++ [Event.retrieveMemories "git pattern" ["core", "peripheral"] 1000]) := by
  have h02 : (0 : Int) * 2 = 0 := by norm_num
  unfold search_git_patterns
  rw [h02, hsecond]
  simp [hfirst]

/-- Witness for C5: a store holding exactly three `git::` records with
    pattern types cochange, cochange, hotspot yields the summary
    cochange 2, hotspot 1, solution 0 (total 3). -/
theorem pattern_count_query_witness :
    pyTruthy (retrieve_memories sysB (buildPatternQuery "" Option.none)
        (some ["core", "peripheral"]) 0 true).result = true ∧
    (search_git_patterns sysB "" Option.none 0).2.1
      = some { total := 3, cochange := 2, hotspot := 1, solution := 0 } := by
  have h := pattern_count_query sysB "" Option.none threeGitBuckets (by decide) rfl
  refine ⟨by decide, ?_⟩
  rw [h]
  decide


theorem retrieve_memories_ok (sys : SysEnv) (query : String) (types : Option (List String))
    (limit : Int) (display : Bool) (res : Buckets)
    (hq : isBlank query = false)
    (hr : sys.retrieve_memories query (types.getD ["core", "peripheral", "bridge"]) limit
      = Except.ok res) :
    retrieve_memories sys query types limit display =
      if display then
        if totalResults res = 0 then
          ⟨some res, [],
            [Event.retrieveMemories query (types.getD ["core", "peripheral", "bridge"]) limit]⟩
        else if (displayAll res).2 = true then
          ⟨some res, (displayAll res).1,
            [Event.retrieveMemories query (types.getD ["core", "peripheral", "bridge"]) limit]⟩
        else
          ⟨none, (displayAll res).1,
            [Event.retrieveMemories query (types.getD ["core", "peripheral", "bridge"]) limit]⟩
      else
        ⟨some res, [],
          [Event.retrieveMemories query (types.getD ["core", "peripheral", "bridge"]) limit]⟩ := by
  unfold retrieve_memories
  simp only [hq, Bool.false_eq_true, if_false]
  rw [hr]

theorem retrieve_memories_err (sys : SysEnv) (query : String) (types : Option (List String))
    (limit : Int) (display : Bool) (e : String)
    (hq : isBlank query = false)
    (hr : sys.retrieve_memories query (types.getD ["core", "peripheral", "bridge"]) limit
      = Except.error e) :
    retrieve_memories sys query types limit display =
      ⟨none, [],
        [Event.retrieveMemories query (types.getD ["core", "peripheral", "bridge"]) limit]⟩ := by
  unfold retrieve_memories
  simp only [hq, Bool.false_eq_true, if_false]
  rw [hr]

/-- C6: bridge item presentation — whenever the result returned by
    `retrieve_memories` (display on) contains a bridge item in the bridge
    bucket, the stratified display contains an entry carrying that item's
    novelty score, connection potential and bridge score exactly as
    received, attributed to the wrapped inner record's id (and level and
    truncated content). -/
theorem bridge_display_faithful (sys : SysEnv) (query : String)
    (types : Option (List String)) (limit : Int) (res : Buckets)
    (ms : List MemoryItem) (b : BridgeMemory)
    (hres : (retrieve_memories sys query types limit true).result = some res)
    (hbucket : ("bridge", ms) ∈ res) (hitem : MemoryItem.bridge b ∈ ms) :
    DisplayEntry.bridge (strTake b.memory.content 100) b.memory.id b.memory.hierarchy_level
      b.novelty_score b.connection_potential b.bridge_score
      ∈ (retrieve_memories sys query types limit true).displayed := by
  by_cases hq : isBlank query = true
  · unfold retrieve_memories at hres
    simp [hq] at hres
  · have hq' : isBlank query = false := by
      revert hq
      cases isBlank query <;> simp
    cases hr : sys.retrieve_memories query (types.getD ["core", "peripheral", "bridge"])
        limit with
    | error e =>
      rw [retrieve_memories_err sys query types limit true e hq' hr] at hres
      cases hres
    | ok res' =>
      rw [retrieve_memories_ok sys query types limit true res' hq' hr] at hres ⊢
      by_cases h0 : totalResults res' = 0
      · simp only [h0, if_true, if_pos, Option.some.injEq] at hres
        rw [← hres] at hbucket
        have hms := totalResults_zero res' "bridge" ms h0 hbucket
        subst hms
        cases hitem
      · by_cases hd : (displayAll res').2 = true
        · simp only [h0, hd, if_true, if_false, Option.some.injEq] at hres ⊢
          rw [← hres] at hbucket
          have hb := displayAll_bucket res' "bridge" ms hd hbucket
          exact hb.2 _ (displayItems_bridge_mem ms b hb.1 hitem)
        · simp only [h0, hd, if_false, if_true] at hres
          cases hres

/-- Witness for C6: one bridge item with novelty 0.8, connection potential
    0.6, bridge score 0.7 is displayed with exactly those three values and
    the inner record's id. -/
theorem bridge_display_faithful_witness :
    (retrieve_memories sysC "q" Option.none 10 true).result
      = some [("bridge", [MemoryItem.bridge bridgeWit])] ∧
    DisplayEntry.bridge "bridging note" "git::bridge-1" 1 0.8 0.6 0.7
      ∈ (retrieve_memories sysC "q" Option.none 10 true).displayed := by
  have h := bridge_display_faithful sysC "q" Option.none 10
    [("bridge", [MemoryItem.bridge bridgeWit])] [MemoryItem.bridge bridgeWit] bridgeWit
    rfl (by simp) (by simp)
  exact ⟨rfl, h⟩

/-- C7: regular item relevance — every non-bridge entry in the stratified
    display of `retrieve_memories` shows, for some regular record of the
    returned result, that record's `metadata["similarity_score"]` when the
    key is present and its `strength` otherwise, together with the
    record's type, truncated content, id and level. -/
theorem regular_display_score (sys : SysEnv) (query : String)
    (types : Option (List String)) (limit : Int) (res : Buckets)
    (hraw : sys.retrieve_memories query (types.getD ["core", "peripheral", "bridge"]) limit
      = Except.ok res)
    (mt cp idv : String) (lvl : Int) (q : Rat)
    (hmem : DisplayEntry.regular mt cp idv lvl q
      ∈ (retrieve_memories sys query types limit true).displayed) :
    ∃ m : Memory, (∃ bt ms, (bt, ms) ∈ res ∧ MemoryItem.regular m ∈ ms) ∧
      mt = m.memory_type ∧ cp = strTake m.content 100 ∧ idv = m.id ∧
      lvl = m.hierarchy_level ∧
      MetaValue.num q = (lookupMeta m.metadata "similarity_score").getD
        (MetaValue.num m.strength) := by
  by_cases hq : isBlank query = true
  · unfold retrieve_memories at hmem
    simp [hq] at hmem
  · have hq' : isBlank query = false := by
      revert hq
      cases isBlank query <;> simp
    rw [retrieve_memories_ok sys query types limit true res hq' hraw] at hmem
    by_cases h0 : totalResults res = 0
    · simp only [h0, if_true, if_pos] at hmem
      cases hmem
    · have hmem' : DisplayEntry.regular mt cp idv lvl q ∈ (displayAll res).1 := by
        by_cases hd : (displayAll res).2 = true
        · simpa only [h0, hd, if_true, if_false] using hmem
        · simpa only [h0, hd, if_true, if_false] using hmem
      obtain ⟨bt, ms, hbt, hin⟩ := displayAll_src res _ hmem'
      obtain ⟨it, hit, hok⟩ := displayItems_src bt ms _ hin
      cases it with
      | bridge b =>
        simp only [displayItem] at hok
        by_cases hb : bt = "bridge"
        · simp only [hb, if_pos] at hok
          cases hok
        · simp only [hb, if_false] at hok
          cases hok
      | regular m =>
        simp only [displayItem] at hok
        cases hs : (lookupMeta m.metadata "similarity_score").getD
            (MetaValue.num m.strength) with
        | str s =>
          rw [hs] at hok
          cases hok
        | num q0 =>
          rw [hs] at hok
          injection hok with hok'
          injection hok' with e1 e2 e3 e4 e5
          exact ⟨m, ⟨bt, ms, hbt, hit⟩, e1.symm, e2.symm, e3.symm, e4.symm, by
            rw [hs, ← e5]⟩

/-- Witness for C7: a regular record with `similarity_score = 0.9` and
    strength 0.4 is displayed with relevance 0.9 from the metadata. -/
theorem regular_display_score_witness :
    DisplayEntry.regular "episodic" "scored" "m2" 2 0.9
      ∈ (retrieve_memories sysD "q" Option.none 10 true).displayed ∧
    ∃ m : Memory,
      (∃ bt ms, (bt, ms) ∈ [("core", [MemoryItem.regular simMem])] ∧
        MemoryItem.regular m ∈ ms) ∧
      "episodic" = m.memory_type ∧ "scored" = strTake m.content 100 ∧ "m2" = m.id ∧
      (2 : Int) = m.hierarchy_level ∧
      MetaValue.num 0.9 = (lookupMeta m.metadata "similarity_score").getD
        (MetaValue.num m.strength) := by
  have hmem : DisplayEntry.regular "episodic" "scored" "m2" 2 0.9
      ∈ (retrieve_memories sysD "q" Option.none 10 true).displayed :=
    List.Mem.head _
  exact ⟨hmem,
    regular_display_score sysD "q" Option.none 10 [("core", [MemoryItem.regular simMem])]
      rfl "episodic" "scored" "m2" 2 0.9 hmem⟩

theorem store_experience_events_first (sys : SysEnv) (text : String) (cj : CtxJson)
    (ht : isBlank text = false) (hcj : ctxJsonParses cj = true) :
    (store_experience sys text Option.none cj).2
      = [Event.storeExperience text (firstStoreCtx cj)] := by
  unfold store_experience
  simp only [ht, Bool.false_eq_true, if_false]
  cases cj with
  | none =>
    simp only [ctxJsonTruthy, Bool.false_and, Bool.false_eq_true, if_false, firstStoreCtx]
    cases hsr : sys.store_experience text Option.none <;> simp
  | invalid raw =>
    have hr : raw = "" := by
      simpa [ctxJsonParses] using hcj
    subst hr
    simp only [ctxJsonTruthy, bne_self_eq_false, Bool.false_and, Bool.false_eq_true,
      if_false, firstStoreCtx]
    cases hsr : sys.store_experience text Option.none <;> simp
  | valid raw c =>
    by_cases hr : raw = ""
    · subst hr
      simp only [ctxJsonTruthy, bne_self_eq_false, Bool.false_and, Bool.false_eq_true,
        if_false, firstStoreCtx, beq_self_eq_true, if_true]
      cases hsr : sys.store_experience text Option.none <;> simp
    · have hb : (raw != "") = true := by
        simpa using hr
      simp only [ctxJsonTruthy, hb, ctxTruthy, Bool.not_false, Bool.and_true,
        if_true, firstStoreCtx]
      have hbeq : (raw == "") = false := by
        simpa using hr
      rw [hbeq]
      simp only [Bool.false_eq_true, if_false]
      cases hsr : sys.store_experience text (some c) <;> simp

theorem store_experience_events_ctx (sys : SysEnv) (text : String) (context : Option Ctx)
    (ht : isBlank text = false) :
    (store_experience sys text context CtxJson.none).2
      = [Event.storeExperience text context] := by
  unfold store_experience
  simp only [ht, Bool.false_eq_true, if_false, ctxJsonTruthy, Bool.false_and]
  cases hsr : sys.store_experience text context <;> simp

/-- C9 (counterexample): the claim promises two collaborator submissions for
    every `store` invocation with non-empty text and a supplied level, but
    with an invalid `--context` JSON string the first call is rejected
    before reaching the collaborator, so exactly one submission happens. -/
theorem store_level_counterexample :
    ((mainStore sysA "note" (CtxJson.invalid "oops") (some 1)).2.countP
        Event.isStoreCall) = 1 ∧
    ¬ ((mainStore sysA "note" (CtxJson.invalid "oops") (some 1)).2.countP
        Event.isStoreCall) = 2 := by
  constructor
  · decide
  · decide

/-- C9 (amended): for every `store` invocation with non-empty text and a
    supplied hierarchy level, provided any supplied context JSON parses,
    the dispatcher calls `store_experience` twice — first without a
    `context` argument (the collaborator receives the parsed JSON context,
    or none), then with `context = {"hierarchy_level": level}` — so the
    same text reaches the collaborator's `store_experience` twice. -/
theorem store_level_double_store (sys : SysEnv) (text : String) (cj : CtxJson) (lvl : Int)
    (ht : isBlank text = false) (hcj : ctxJsonParses cj = true) :
    (mainStore sys text cj (some lvl)).2 =
      [Event.storeExperience text (firstStoreCtx cj),
       Event.storeExperience text (some [("hierarchy_level", MetaValue.num (lvl : Rat))])] := by
  unfold mainStore
  simp only []
  rw [store_experience_events_first sys text cj ht hcj,
    store_experience_events_ctx sys text
      (some [("hierarchy_level", MetaValue.num (lvl : Rat))]) ht]
  rfl

/-- Witness for C9's amended claim: text "note", level 1, no context JSON —
    the collaborator receives the text twice, first with no context, then
    with the hierarchy-level context. -/
theorem store_level_double_store_witness :
    isBlank "note" = false ∧ ctxJsonParses CtxJson.none = true ∧
    (mainStore sysA "note" CtxJson.none (some 1)).2 =
      [Event.storeExperience "note" Option.none,
       Event.storeExperience "note"
         (some [("hierarchy_level", MetaValue.num ((1 : Int) : Rat))])] := by
  refine ⟨by decide, by decide, ?_⟩
  have h := store_level_double_store sysA "note" CtxJson.none 1 (by decide) (by decide)
  simpa only [firstStoreCtx] using h
